import Mathlib

/-!
Verification of the task-list controller implemented in `src/myproject/App.js`
(the to-do screen). The component state and its event handlers are embedded
shallowly: each React handler becomes a pure function from the component state
to a result that records the next state, whether `setTasks` was invoked (which
is what makes the persistence effect hooked on the tasks array run), and which
platform animations were started. Host primitives (the wall clock behind
`Date.now()`, `AsyncStorage`, `JSON.parse` and `JSON.stringify`) are not
repository code; they enter as explicit parameters or as a value-level JSON
model, as documented on each definition.
-/

namespace TodoApp

/-- A to-do item, as created in the addTask handler:
an object with fields `id`, `text`, `completed`. -/
structure Task where
  id : String
  text : String
  completed : Bool
deriving Repr, DecidableEq

/-- The `taskAnimations` component state: a JS object used as a map from task
id to the current value of the corresponding `Animated.Value`, kept here as an
insertion-ordered association list. -/
abbrev AnimMap := List (String × Nat)

/-- JS object copy-and-assign, as in the handlers:
spread the object and then assign key `k` the value `v`. An existing key keeps
its position; a new key is appended. -/
def setKey (m : AnimMap) (k : String) (v : Nat) : AnimMap :=
  if m.any (fun p => p.1 = k) then
    m.map (fun p => if p.1 = k then (k, v) else p)
  else
    m ++ [(k, v)]

/-- JS `delete obj[k]` on a copied object. -/
def delKey (m : AnimMap) (k : String) : AnimMap :=
  m.filter (fun p => p.1 ≠ k)

/-- JS property read `obj[k]`, `none` when the key is absent. -/
def getKey (m : AnimMap) (k : String) : Option Nat :=
  (m.find? (fun p => p.1 = k)).map (fun p => p.2)

/-- Modelled from the spec: the host primitive `String.prototype.trim`, used
in the addTask guard; it removes leading and trailing whitespace. -/
def jsTrim (s : String) : String :=
  String.mk (((s.data.dropWhile Char.isWhitespace).reverse.dropWhile Char.isWhitespace).reverse)

/-- The component state of the App component: the `task` input field, the
`tasks` list, the `editingId` pointer and the `taskAnimations` map. -/
structure AppState where
  task : String
  tasks : List Task
  editingId : Option String
  taskAnimations : AnimMap
deriving Repr, DecidableEq

/-- The initial component state: `useState` gives the empty string, the empty
list, `null`, and the empty object. -/
def initState : AppState :=
  { task := "", tasks := [], editingId := none, taskAnimations := [] }

/-- A sample task used to evaluate the theorems on concrete inputs. -/
def sampleTask1 : Task := { id := "1", text := "A", completed := false }

/-- A second sample task. -/
def sampleTask2 : Task := { id := "2", text := "B", completed := true }

/-- A sample state holding one task. -/
def sampleOne : AppState :=
  { task := "", tasks := [sampleTask1], editingId := none, taskAnimations := [] }

/-- A sample state holding two tasks with distinct ids. -/
def sampleTwo : AppState :=
  { task := "", tasks := [sampleTask1, sampleTask2], editingId := none, taskAnimations := [] }

/-- One `Animated.timing(value, opts).start()` call: which task id the animated
value belongs to, the target value, and the duration in milliseconds. -/
structure AnimSpec where
  animId : String
  target : Nat
  duration : Nat
deriving Repr, DecidableEq

/-- The observable outcome of one event-handler invocation: the next component
state, whether `setTasks` was called (every call site passes a freshly built
array, so the dependency comparison of the persistence effect keyed on the
tasks array sees a change exactly when `setTasks` ran), and the list of
animations started. -/
structure OpResult where
  state : AppState
  setTasksCalled : Bool
  animsStarted : List AnimSpec
deriving Repr, DecidableEq

/-- Whether the persistence effect (the save hook keyed on the tasks array,
App.js lines 57 to 67) runs after a handler invocation: it runs exactly when
the handler called `setTasks`, because each call passes a newly constructed
array and the dependency comparison is by reference. -/
def persistRuns (r : OpResult) : Bool :=
  r.setTasksCalled

/-- JS `Array.prototype.findIndex`: index of the first element satisfying the
predicate, and -1 when none does. -/
def jsFindIndex (p : Task → Bool) : List Task → Int
  | [] => -1
  | t :: ts =>
    if p t then 0
    else
      let r := jsFindIndex p ts
      if r < 0 then -1 else r + 1

/-- The addTask handler (App.js lines 70 to 88). `now` is the value of the
host clock `Date.now()` at the call, in milliseconds; the new id is its
decimal string. The input text lives in the `task` field of the state; a
successful add appends the new task, registers its animated value at 0,
starts a fade-in to 1 over 500 ms, and clears the input field. A blank
(whitespace-only) input falls through the truthiness guard and nothing
happens. -/
def addTask (now : Nat) (s : AppState) : OpResult :=
  if jsTrim s.task ≠ "" then
    let newTask : Task := { id := toString now, text := s.task, completed := false }
    { state :=
        { s with
          tasks := s.tasks ++ [newTask]
          taskAnimations := setKey s.taskAnimations newTask.id 0
          task := "" }
      setTasksCalled := true
      animsStarted := [{ animId := newTask.id, target := 1, duration := 500 }] }
  else
    { state := s, setTasksCalled := false, animsStarted := [] }

/-- The deleteTask handler up to starting the fade-out (App.js lines 91 to
104). When a task with the given id exists, it registers an animated value at
1 for it and starts a fade to 0 over 500 ms; the tasks list is not touched
here. When no such task exists, nothing happens. -/
def deleteTask (taskId : String) (s : AppState) : OpResult :=
  if 0 ≤ jsFindIndex (fun t => t.id = taskId) s.tasks then
    { state := { s with taskAnimations := setKey s.taskAnimations taskId 1 }
      setTasksCalled := false
      animsStarted := [{ animId := taskId, target := 0, duration := 500 }] }
  else
    { state := s, setTasksCalled := false, animsStarted := [] }

/-- The completion callback passed to `.start()` inside deleteTask (App.js
lines 104 to 111): it filters the task out of the list and removes its entry
from the animations object; `captured` is the `newTaskAnimations` object the
closure captured when the deletion started. -/
def deleteTaskComplete (taskId : String) (captured : AnimMap) (s : AppState) : OpResult :=
  { state :=
      { s with
        tasks := s.tasks.filter (fun item => item.id ≠ taskId)
        taskAnimations := delKey captured taskId }
    setTasksCalled := true
    animsStarted := [] }

/-- A full deletion: the deleteTask handler followed by its animation
completion callback, which receives the animations object captured when the
deletion started. -/
def deleteTaskRun (taskId : String) (s : AppState) : OpResult :=
  deleteTaskComplete taskId (deleteTask taskId s).state.taskAnimations (deleteTask taskId s).state

/-- The toggleComplete handler (App.js lines 116 to 122): maps over the tasks,
flipping `completed` on every task whose id matches. -/
def toggleComplete (taskId : String) (s : AppState) : OpResult :=
  { state :=
      { s with
        tasks := s.tasks.map (fun t =>
          if t.id = taskId then { t with completed := !t.completed } else t) }
    setTasksCalled := true
    animsStarted := [] }

/-- The updateTask handler (App.js lines 125 to 131): maps over the tasks,
replacing `text` on every task whose id matches. The editing pointer is not
touched. -/
def updateTask (taskId : String) (newText : String) (s : AppState) : OpResult :=
  { state :=
      { s with
        tasks := s.tasks.map (fun t =>
          if t.id = taskId then { t with text := newText } else t) }
    setTasksCalled := true
    animsStarted := [] }

/-- The Edit button press: `setEditingId(item.id)` (App.js line 192). -/
def beginEdit (taskId : String) (s : AppState) : OpResult :=
  { state := { s with editingId := some taskId }
    setTasksCalled := false
    animsStarted := [] }

/-- The handleBlur handler (App.js lines 134 to 136): clears the editing
pointer. -/
def handleBlur (s : AppState) : OpResult :=
  { state := { s with editingId := none }
    setTasksCalled := false
    animsStarted := [] }

/-- The external triggers the controller reacts to. An `add` event carries the
host clock reading at the moment of the press together with the text typed
into the input field; `deleteFinish` is the animation-completion callback of a
started deletion. -/
inductive Event where
  | add (now : Nat) (text : String)
  | deleteStart (taskId : String)
  | deleteFinish (taskId : String)
  | toggle (taskId : String)
  | edit (taskId : String) (newText : String)
  | beginEditing (taskId : String)
  | blur
deriving Repr, DecidableEq

/-- State transition for one event. For `add`, the user first types `text`
into the input field and then presses the add button. -/
def applyEvent (s : AppState) : Event → AppState
  | .add now text => (addTask now { s with task := text }).state
  | .deleteStart taskId => (deleteTask taskId s).state
  | .deleteFinish taskId => (deleteTaskComplete taskId s.taskAnimations s).state
  | .toggle taskId => (toggleComplete taskId s).state
  | .edit taskId newText => (updateTask taskId newText s).state
  | .beginEditing taskId => (beginEdit taskId s).state
  | .blur => (handleBlur s).state

/-- Run a sequence of events from a state. -/
def run (s : AppState) (evs : List Event) : AppState :=
  evs.foldl applyEvent s

/-- The add events of a trace carry clock readings that start at or after `n`
and strictly increase: no two adds observe the same millisecond. -/
def addsFromB : Nat → List Event → Bool
  | _, [] => true
  | n, Event.add now _ :: evs => decide (n ≤ now) && addsFromB (now + 1) evs
  | n, _ :: evs => addsFromB n evs

/-- Every id in the list is the decimal string of some clock reading below
`n`. -/
def idsBelow (n : Nat) (ts : List Task) : Prop :=
  ∀ t ∈ ts, ∃ m, m < n ∧ t.id = toString m

end TodoApp

namespace TodoApp

/-! ### Value-level model of the persistence format

The save hook writes `JSON.stringify(tasks)` under the fixed key, and the load
path reads it back with `JSON.parse`. Both are host primitives, modelled here
at the JSON value level. -/

/-- Modelled from the spec: the universe of JSON values handled by the host
primitives `JSON.stringify` and `JSON.parse`, which are not repository code. -/
inductive Json where
  | null
  | bool (b : Bool)
  | num (n : Int)
  | str (s : String)
  | arr (elems : List Json)
  | obj (fields : List (String × Json))

/-- The JSON value `JSON.stringify` produces for one task: an object with
exactly the three fields `id`, `text`, `completed`, in that order. -/
def taskToJson (t : Task) : Json :=
  .obj [("id", .str t.id), ("text", .str t.text), ("completed", .bool t.completed)]

/-- The JSON value `JSON.stringify(tasks)` produces: the array of the task
objects, in list order. -/
def tasksToJson (ts : List Task) : Json :=
  .arr (ts.map taskToJson)

/-- Field lookup in a JSON object. -/
def jsonField (fields : List (String × Json)) (k : String) : Option Json :=
  (fields.find? (fun p => p.1 = k)).map (fun p => p.2)

/-- Reading one task back from its JSON value. -/
def jsonToTask : Json → Option Task
  | .obj fields =>
    match jsonField fields "id", jsonField fields "text", jsonField fields "completed" with
    | some (.str i), some (.str tx), some (.bool c) =>
      some { id := i, text := tx, completed := c }
    | _, _, _ => none
  | _ => none

/-- Reading a list of tasks back from a list of JSON values; fails if any
element fails. -/
def jsonTaskList : List Json → Option (List Task)
  | [] => some []
  | j :: js =>
    match jsonToTask j, jsonTaskList js with
    | some t, some ts => some (t :: ts)
    | _, _ => none

/-- Reading the whole persisted value back. -/
def jsonToTasks : Json → Option (List Task)
  | .arr es => jsonTaskList es
  | _ => none

/-- The fixed storage key both the save and the load path use. -/
def storageKey : String := "tasks"

/-- The loadTasksFromStorage startup path (App.js lines 43 to 55). The host
primitives are not repository code: `saved` is the string the storage read
returned (`none` models the absent slot) and `parse` gives the outcome of
`JSON.parse` on a string, `Except.error` being the exception the catch block
receives. The result is the final `tasks` state (it starts as the empty list
and is only assigned when a truthy stored value parses) together with the
`console.error` lines emitted. The parsed value is assigned to the tasks state
without any shape validation, so the model types the parse outcome at the
format of the slot. -/
def loadTasksFromStorage (parse : String → Except String (List Task))
    (saved : Option String) : List Task × List String :=
  match saved with
  | none => ([], [])
  | some str =>
    if str ≠ "" then
      match parse str with
      | .ok ts => (ts, [])
      | .error _ => ([], ["Failed to load tasks from storage"])
    else ([], [])

/-! ### Decimal representation of clock readings

`Date.now().toString()` is modelled as `toString` on the natural clock
reading. The following decoder witnesses that this decimal representation is
injective, which is what id freshness under a strictly advancing clock rests
on. -/

/-- Numeric value of a decimal digit character. -/
def digitVal (c : Char) : Nat :=
  c.toNat - 48

/-- Left fold of decimal digits onto an accumulator. -/
def chainVal (a : Nat) (cs : List Char) : Nat :=
  cs.foldl (fun acc c => acc * 10 + digitVal c) a

/-- The number obtained by appending the decimal digits of `n` after the
digits already accumulated in `a`. -/
def pushNum (a : Nat) (n : Nat) : Nat :=
  if h : n < 10 then a * 10 + n
  else pushNum a (n / 10) * 10 + n % 10
termination_by n
decreasing_by
  exact Nat.div_lt_self (Nat.lt_of_lt_of_le (by norm_num) (Nat.le_of_not_lt h)) (by norm_num)

end TodoApp

namespace TodoApp

/-! ### Helper lemmas -/

theorem jsFindIndex_nonneg_iff (p : Task → Bool) (l : List Task) :
    0 ≤ jsFindIndex p l ↔ ∃ t ∈ l, p t = true := by
  induction l with
  | nil => simp [jsFindIndex]
  | cons t ts ih =>
    by_cases hp : p t = true
    · simp [jsFindIndex, hp]
    · rw [jsFindIndex, if_neg hp]
      by_cases hr : jsFindIndex p ts < 0
      · rw [if_pos hr]
        constructor
        · intro h0; omega
        · rintro ⟨u, hu, hpu⟩
          rcases List.mem_cons.mp hu with h | h
          · exact absurd (h ▸ hpu) hp
          · exact absurd (ih.mpr ⟨u, h, hpu⟩) (by omega)
      · rw [if_neg hr]
        constructor
        · intro _
          obtain ⟨u, hu, hpu⟩ := ih.mp (by omega)
          exact ⟨u, List.mem_cons_of_mem t hu, hpu⟩
        · intro _; omega

theorem getKey_delKey (m : AnimMap) (k : String) : getKey (delKey m k) k = none := by
  rw [getKey, delKey]
  have : (m.filter (fun p => p.1 ≠ k)).find? (fun p => p.1 = k) = none := by
    rw [List.find?_eq_none]
    intro x hx
    have := (List.mem_filter.mp hx).2
    simpa using this
  rw [this]
  rfl

theorem filter_ne_length (l : List Task) (i : String)
    (hmem : i ∈ l.map Task.id) (hnd : (l.map Task.id).Nodup) :
    (l.filter (fun t => t.id ≠ i)).length + 1 = l.length := by
  induction l with
  | nil => simp at hmem
  | cons t ts ih =>
    simp only [List.map_cons, List.nodup_cons] at hnd
    obtain ⟨hni, hnd2⟩ := hnd
    by_cases h : t.id = i
    · have hall : ∀ u ∈ ts, u.id ≠ i := by
        intro u hu he
        exact hni (h ▸ he ▸ List.mem_map_of_mem Task.id hu)
      have hself : ts.filter (fun u => u.id ≠ i) = ts :=
        List.filter_eq_self.mpr (fun u hu => by simpa using hall u hu)
      rw [List.filter_cons, if_neg (by simp [h]), hself]
      simp
    · have hmem2 : i ∈ ts.map Task.id := by
        rcases (by simpa using hmem : i = t.id ∨ ∃ a ∈ ts, a.id = i) with h2 | ⟨a, ha, hai⟩
        · exact absurd h2.symm h
        · exact List.mem_map.mpr ⟨a, ha, hai⟩
      have := ih hmem2 hnd2
      simp only [List.filter_cons, List.length_cons]
      rw [if_pos (by simpa using h)]
      simp only [List.length_cons]
      omega

theorem ids_map_id_preserving (l : List Task) (f : Task → Task)
    (hf : ∀ t, (f t).id = t.id) : (l.map f).map Task.id = l.map Task.id := by
  rw [List.map_map]
  exact List.map_congr_left (fun t _ => hf t)

end TodoApp

namespace TodoApp

/-! ### The decimal representation of clock readings is injective -/

theorem digitVal_digitChar (m : Nat) (h : m < 10) : digitVal (Nat.digitChar m) = m := by
  interval_cases m <;> rfl

theorem chainVal_cons (a : Nat) (c : Char) (cs : List Char) :
    chainVal a (c :: cs) = chainVal (a * 10 + digitVal c) cs := rfl

theorem pushNum_lt (a n : Nat) (h : n < 10) : pushNum a n = a * 10 + n := by
  rw [pushNum, dif_pos h]

theorem pushNum_ge (a n : Nat) (h : ¬ n < 10) :
    pushNum a n = pushNum a (n / 10) * 10 + n % 10 := by
  rw [pushNum, dif_neg h]

theorem pushNum_zero (n : Nat) : pushNum 0 n = n := by
  induction n using Nat.strong_induction_on with
  | _ n ih =>
    by_cases h : n < 10
    · rw [pushNum_lt 0 n h]; omega
    · rw [pushNum_ge 0 n h, ih (n / 10) (Nat.div_lt_self (by omega) (by norm_num))]
      omega

theorem chainVal_toDigitsCore : ∀ (fuel : Nat), ∀ n < fuel, ∀ (a : Nat) (ds : List Char),
    chainVal a (Nat.toDigitsCore 10 fuel n ds) = chainVal (pushNum a n) ds := by
  intro fuel
  induction fuel with
  | zero => intro n h; omega
  | succ fuel ih =>
    intro n h a ds
    simp only [Nat.toDigitsCore]
    by_cases h0 : n / 10 = 0
    · rw [if_pos h0]
      have hn : n < 10 := (Nat.div_eq_zero_iff (by norm_num)).mp h0
      rw [chainVal_cons, digitVal_digitChar (n % 10) (Nat.mod_lt n (by norm_num)),
        pushNum_lt a n hn, Nat.mod_eq_of_lt hn]
    · rw [if_neg h0]
      have hge : ¬ n < 10 := by
        intro hlt
        exact h0 ((Nat.div_eq_zero_iff (by norm_num)).mpr hlt)
      have hlt : n / 10 < fuel := by
        have := Nat.div_lt_self (by omega : 0 < n) (by norm_num : 1 < 10)
        omega
      rw [ih (n / 10) hlt a (Nat.digitChar (n % 10) :: ds), chainVal_cons,
        digitVal_digitChar (n % 10) (Nat.mod_lt n (by omega)), pushNum_ge a n hge]

theorem chainVal_toDigits (n : Nat) : chainVal 0 (Nat.toDigits 10 n) = n := by
  have h := chainVal_toDigitsCore (n + 1) n (Nat.lt_succ_self n) 0 []
  rw [Nat.toDigits, h]
  exact pushNum_zero n

theorem toString_nat_inj {m n : Nat} (h : toString m = toString n) : m = n := by
  have hd : Nat.toDigits 10 m = Nat.toDigits 10 n := congrArg String.data h
  have h2 := congrArg (chainVal 0) hd
  rwa [chainVal_toDigits, chainVal_toDigits] at h2

end TodoApp

namespace TodoApp

/-! ### Id uniqueness along traces with a strictly advancing clock -/

theorem idsBelow_mono {n m : Nat} {l : List Task} (h : n ≤ m) (hb : idsBelow n l) :
    idsBelow m l := by
  intro t ht
  obtain ⟨k, hk, he⟩ := hb t ht
  exact ⟨k, by omega, he⟩

theorem idsBelow_of_subset {n : Nat} {l l2 : List Task}
    (hsub : ∀ t ∈ l2, t ∈ l) (hb : idsBelow n l) : idsBelow n l2 :=
  fun t ht => hb t (hsub t ht)

theorem idsBelow_map {n : Nat} {l : List Task} {f : Task → Task}
    (hf : ∀ t, (f t).id = t.id) (hb : idsBelow n l) : idsBelow n (l.map f) := by
  intro t ht
  obtain ⟨u, hu, rfl⟩ := List.mem_map.mp ht
  obtain ⟨m, hm, he⟩ := hb u hu
  exact ⟨m, hm, by rw [hf u]; exact he⟩

theorem deleteTask_state_tasks (taskId : String) (s : AppState) :
    (deleteTask taskId s).state.tasks = s.tasks := by
  rw [deleteTask]
  split <;> rfl

theorem toggle_fun_id (taskId : String) :
    ∀ t : Task, ((fun t : Task =>
      if t.id = taskId then { t with completed := !t.completed } else t) t).id = t.id := by
  intro t
  by_cases h : t.id = taskId <;> simp [h]

theorem update_fun_id (taskId newText : String) :
    ∀ t : Task, ((fun t : Task =>
      if t.id = taskId then { t with text := newText } else t) t).id = t.id := by
  intro t
  by_cases h : t.id = taskId <;> simp [h]

theorem fresh_id_not_mem {n now : Nat} {l : List Task}
    (hb : idsBelow n l) (hle : n ≤ now) : toString now ∉ l.map Task.id := by
  intro hmem
  obtain ⟨t, ht, hid⟩ := List.mem_map.mp hmem
  obtain ⟨m, hm, he⟩ := hb t ht
  have : m = now := toString_nat_inj (by rw [← he, hid])
  omega

theorem run_ids_nodup (evs : List Event) : ∀ (n : Nat) (s : AppState),
    (s.tasks.map Task.id).Nodup → idsBelow n s.tasks → addsFromB n evs = true →
    ((run s evs).tasks.map Task.id).Nodup := by
  induction evs with
  | nil =>
    intro n s hnd _ _
    simpa [run] using hnd
  | cons e evs ih =>
    intro n s hnd hb hadds
    rw [run, List.foldl_cons]
    show ((run (applyEvent s e) evs).tasks.map Task.id).Nodup
    cases e with
    | add now text =>
      rw [addsFromB] at hadds
      rw [Bool.and_eq_true, decide_eq_true_eq] at hadds
      obtain ⟨hle, hrest⟩ := hadds
      by_cases hblank : jsTrim text = ""
      · have hst : applyEvent s (.add now text) = { s with task := text } := by
          simp [applyEvent, addTask, hblank]
        rw [hst]
        exact ih (now + 1) _ hnd (idsBelow_mono (by omega) hb) hrest
      · have hst : (applyEvent s (.add now text)).tasks
            = s.tasks ++ [{ id := toString now, text := text, completed := false }] := by
          simp [applyEvent, addTask, hblank]
        apply ih (now + 1) _ ?_ ?_ hrest
        · rw [hst, List.map_append]
          rw [List.nodup_append]
          refine ⟨hnd, List.nodup_singleton _, ?_⟩
          intro x hx hx2
          simp only [List.map_cons, List.map_nil, List.mem_singleton] at hx2
          exact fresh_id_not_mem hb hle (hx2 ▸ hx)
        · rw [hst]
          intro t ht
          rcases List.mem_append.mp ht with h2 | h2
          · obtain ⟨m, hm, he⟩ := hb t h2
            exact ⟨m, by omega, he⟩
          · refine ⟨now, by omega, ?_⟩
            rw [List.mem_singleton.mp h2]
    | deleteStart taskId =>
      have hst : (applyEvent s (.deleteStart taskId)).tasks = s.tasks :=
        deleteTask_state_tasks taskId s
      apply ih n _ ?_ ?_ hadds
      · rw [hst]; exact hnd
      · rw [hst]; exact hb
    | deleteFinish taskId =>
      have hst : (applyEvent s (.deleteFinish taskId)).tasks
          = s.tasks.filter (fun item => item.id ≠ taskId) := rfl
      apply ih n _ ?_ ?_ hadds
      · rw [hst]
        exact List.Nodup.sublist (List.Sublist.map Task.id (List.filter_sublist s.tasks)) hnd
      · rw [hst]
        exact idsBelow_of_subset (fun t ht => List.mem_of_mem_filter ht) hb
    | toggle taskId =>
      apply ih n _ ?_ ?_ hadds
      · show ((s.tasks.map _).map Task.id).Nodup
        rw [ids_map_id_preserving s.tasks _ (toggle_fun_id taskId)]
        exact hnd
      · exact idsBelow_map (toggle_fun_id taskId) hb
    | edit taskId newText =>
      apply ih n _ ?_ ?_ hadds
      · show ((s.tasks.map _).map Task.id).Nodup
        rw [ids_map_id_preserving s.tasks _ (update_fun_id taskId newText)]
        exact hnd
      · exact idsBelow_map (update_fun_id taskId newText) hb
    | beginEditing taskId =>
      exact ih n _ hnd hb hadds
    | blur =>
      exact ih n _ hnd hb hadds

end TodoApp

namespace TodoApp

/-! ### Claim theorems -/

/-- C1: for every input text whose trimmed value is non-empty, addTask
increases the task list length by exactly 1, leaves every previously present
task unchanged at its position (the old list is the prefix of the new one),
and appends at the end a new task with `completed = false` and the given
text. -/
theorem addTask_appends (now : Nat) (text : String) (s : AppState)
    (h : jsTrim text ≠ "") :
    (addTask now { s with task := text }).state.tasks.length = s.tasks.length + 1 ∧
    (addTask now { s with task := text }).state.tasks.take s.tasks.length = s.tasks ∧
    (addTask now { s with task := text }).state.tasks.getLast? =
      some { id := toString now, text := text, completed := false } := by
  refine ⟨?_, ?_, ?_⟩ <;>
    simp [addTask, h, List.take_left, List.getLast?_concat]

/-- Witness for C1 at a concrete input. -/
theorem addTask_appends_witness :
    (addTask 5 { initState with task := "Buy milk" }).state.tasks.length
        = initState.tasks.length + 1 ∧
    (addTask 5 { initState with task := "Buy milk" }).state.tasks.take initState.tasks.length
        = initState.tasks ∧
    (addTask 5 { initState with task := "Buy milk" }).state.tasks.getLast? =
      some { id := toString 5, text := "Buy milk", completed := false } :=
  addTask_appends 5 "Buy milk" initState (by decide)

/-- C3: for every input text that is empty or whitespace-only, addTask is a
no-op: the whole component state is unchanged, the persistence effect does not
run, and no animation is started. -/
theorem addTask_blank_noop (now : Nat) (text : String) (s : AppState)
    (h : jsTrim text = "") :
    (addTask now { s with task := text }).state = { s with task := text } ∧
    persistRuns (addTask now { s with task := text }) = false ∧
    (addTask now { s with task := text }).animsStarted = [] := by
  refine ⟨?_, ?_, ?_⟩ <;> simp [addTask, persistRuns, h]

/-- Witness for C3 at concrete inputs, covering both the empty and the
whitespace-only text. -/
theorem addTask_blank_noop_witness :
    ((addTask 7 { initState with task := "   " }).state = { initState with task := "   " } ∧
      persistRuns (addTask 7 { initState with task := "   " }) = false ∧
      (addTask 7 { initState with task := "   " }).animsStarted = []) ∧
    ((addTask 7 { initState with task := "" }).state = { initState with task := "" } ∧
      persistRuns (addTask 7 { initState with task := "" }) = false ∧
      (addTask 7 { initState with task := "" }).animsStarted = []) :=
  ⟨addTask_blank_noop 7 "   " initState (by decide),
   addTask_blank_noop 7 "" initState (by decide)⟩

/-- C2 counterexample: two addTask calls that observe the same clock reading
(the same millisecond) produce two tasks with the same id, so the reachable
state after adding "A" and then "B" at clock reading 100 violates id
uniqueness. -/
theorem addTask_same_millis_duplicate_ids :
    ¬ (((run initState [Event.add 100 "A", Event.add 100 "B"]).tasks.map Task.id).Nodup) := by
  decide

/-- C2 as amended: in every state reachable from the empty list by operation
sequences whose addTask calls observe strictly increasing clock readings (no
two adds in the same millisecond), no two tasks share an id. -/
theorem ids_nodup_of_increasing_clock (evs : List Event)
    (h : addsFromB 0 evs = true) :
    ((run initState evs).tasks.map Task.id).Nodup :=
  run_ids_nodup evs 0 initState (by simp [initState])
    (by intro t ht; simp [initState] at ht) h

/-- Witness for the amended C2: two immediately successive adds one
millisecond apart, a toggle, a delete and a re-add keep all ids distinct. -/
theorem ids_nodup_of_increasing_clock_witness :
    ((run initState [Event.add 100 "A", Event.add 101 "A", Event.toggle "100",
        Event.deleteStart "100", Event.deleteFinish "100",
        Event.add 102 "C"]).tasks.map Task.id).Nodup :=
  ids_nodup_of_increasing_clock _ (by decide)

/-- C5: deleting an id that is not present in the task list is a no-op: the
state (task list, animation map, editing pointer) is unchanged, the
persistence effect does not run, and no animation is started. -/
theorem deleteTask_absent_noop (taskId : String) (s : AppState)
    (h : taskId ∉ s.tasks.map Task.id) :
    deleteTask taskId s = { state := s, setTasksCalled := false, animsStarted := [] } := by
  have hno : ¬ (0 ≤ jsFindIndex (fun t => t.id = taskId) s.tasks) := by
    rw [jsFindIndex_nonneg_iff]
    rintro ⟨t, ht, hpt⟩
    exact h (List.mem_map.mpr ⟨t, ht, by simpa using hpt⟩)
  rw [deleteTask, if_neg hno]

/-- Witness for C5 at a concrete input. -/
theorem deleteTask_absent_noop_witness :
    deleteTask "2" { task := "",
                     tasks := [{ id := "1", text := "A", completed := false }],
                     editingId := none,
                     taskAnimations := [("1", 1)] }
      = { state := { task := "",
                     tasks := [{ id := "1", text := "A", completed := false }],
                     editingId := none,
                     taskAnimations := [("1", 1)] },
          setTasksCalled := false, animsStarted := [] } :=
  deleteTask_absent_noop "2" _ (by decide)

end TodoApp

namespace TodoApp

/-- C4: for an id present in a task list with pairwise distinct ids, starting
the deletion leaves the task list untouched and only starts a 500 ms fade of
that task to 0 without persisting; the completion of that fade removes exactly
the task with that id (the length drops by exactly 1, the remaining tasks are
a sublist of the original, so their relative order is preserved, and a task
survives exactly when its id differs), and the animation entry of the removed
task is discarded. -/
theorem deleteTask_fade_then_remove (taskId : String) (s : AppState)
    (hmem : taskId ∈ s.tasks.map Task.id)
    (hnd : (s.tasks.map Task.id).Nodup) :
    (deleteTask taskId s).state.tasks = s.tasks ∧
    (deleteTask taskId s).animsStarted = [{ animId := taskId, target := 0, duration := 500 }] ∧
    persistRuns (deleteTask taskId s) = false ∧
    (deleteTaskRun taskId s).state.tasks.length + 1 = s.tasks.length ∧
    (deleteTaskRun taskId s).state.tasks.Sublist s.tasks ∧
    (∀ t : Task, t ∈ (deleteTaskRun taskId s).state.tasks ↔ t ∈ s.tasks ∧ t.id ≠ taskId) ∧
    getKey (deleteTaskRun taskId s).state.taskAnimations taskId = none := by
  have hpos : 0 ≤ jsFindIndex (fun t => t.id = taskId) s.tasks := by
    rw [jsFindIndex_nonneg_iff]
    obtain ⟨t, ht, hid⟩ := List.mem_map.mp hmem
    exact ⟨t, ht, by simp [hid]⟩
  have htasks : (deleteTaskRun taskId s).state.tasks
      = s.tasks.filter (fun item => item.id ≠ taskId) := by
    show ((deleteTask taskId s).state.tasks.filter (fun item => item.id ≠ taskId)) = _
    rw [deleteTask_state_tasks]
  refine ⟨deleteTask_state_tasks taskId s, ?_, ?_, ?_, ?_, ?_, ?_⟩
  · rw [deleteTask, if_pos hpos]
  · rw [deleteTask, if_pos hpos]; rfl
  · rw [htasks]
    exact filter_ne_length s.tasks taskId hmem hnd
  · rw [htasks]
    exact List.filter_sublist _
  · intro t
    rw [htasks, List.mem_filter]
    simp
  · show getKey (delKey (deleteTask taskId s).state.taskAnimations taskId) taskId = none
    exact getKey_delKey _ _

/-- Witness for C4 at a concrete input: deleting id "1" from the two-task
sample state. -/
theorem deleteTask_fade_then_remove_witness :
    (deleteTask "1" sampleTwo).state.tasks = sampleTwo.tasks ∧
    (deleteTask "1" sampleTwo).animsStarted = [{ animId := "1", target := 0, duration := 500 }] ∧
    persistRuns (deleteTask "1" sampleTwo) = false ∧
    (deleteTaskRun "1" sampleTwo).state.tasks.length + 1 = sampleTwo.tasks.length ∧
    (deleteTaskRun "1" sampleTwo).state.tasks.Sublist sampleTwo.tasks ∧
    (sampleTask2 ∈ (deleteTaskRun "1" sampleTwo).state.tasks ↔
      sampleTask2 ∈ sampleTwo.tasks ∧ sampleTask2.id ≠ "1") ∧
    getKey (deleteTaskRun "1" sampleTwo).state.taskAnimations "1" = none := by
  have h := deleteTask_fade_then_remove "1" sampleTwo (by decide) (by decide)
  exact ⟨h.1, h.2.1, h.2.2.1, h.2.2.2.1, h.2.2.2.2.1, h.2.2.2.2.2.1 sampleTask2,
    h.2.2.2.2.2.2⟩

/-- C6: toggleComplete preserves the list length; the task at each position is
flipped in its completed flag when its id matches (id and text unchanged) and
is untouched otherwise; applying the toggle twice restores the original state
exactly; and toggling an absent id leaves the state unchanged. -/
theorem toggleComplete_spec (taskId : String) (s : AppState) :
    (toggleComplete taskId s).state.tasks.length = s.tasks.length ∧
    (∀ (i : Nat) (t : Task), s.tasks[i]? = some t →
      (t.id = taskId →
        (toggleComplete taskId s).state.tasks[i]? =
          some { t with completed := !t.completed }) ∧
      (t.id ≠ taskId → (toggleComplete taskId s).state.tasks[i]? = some t)) ∧
    (toggleComplete taskId (toggleComplete taskId s).state).state = s ∧
    (taskId ∉ s.tasks.map Task.id → (toggleComplete taskId s).state = s) := by
  refine ⟨by simp [toggleComplete], ?_, ?_, ?_⟩
  · intro i t ht
    constructor <;> intro h <;> simp [toggleComplete, List.getElem?_map, ht, h]
  · obtain ⟨ta, tk, ed, an⟩ := s
    simp only [toggleComplete, List.map_map, AppState.mk.injEq, and_true, true_and]
    refine (List.map_congr_left fun t _ => ?_).trans (List.map_id tk)
    obtain ⟨i2, tx, c⟩ := t
    by_cases h : i2 = taskId <;> simp [h]
  · intro h
    obtain ⟨ta, tk, ed, an⟩ := s
    simp only [toggleComplete, AppState.mk.injEq, and_true, true_and]
    refine (List.map_congr_left fun t ht => ?_).trans (List.map_id tk)
    refine if_neg fun he => h ?_
    exact List.mem_map.mpr ⟨t, ht, he⟩

/-- Witness for C6 at concrete inputs: toggling id "1" in the two-task sample
state, and toggling the absent id "3". -/
theorem toggleComplete_spec_witness :
    (toggleComplete "1" sampleTwo).state.tasks.length = sampleTwo.tasks.length ∧
    (toggleComplete "1" sampleTwo).state.tasks[0]? =
      some { id := "1", text := "A", completed := true } ∧
    (toggleComplete "1" (toggleComplete "1" sampleTwo).state).state = sampleTwo ∧
    (toggleComplete "3" sampleTwo).state = sampleTwo := by
  have h1 := toggleComplete_spec "1" sampleTwo
  have h3 := toggleComplete_spec "3" sampleTwo
  exact ⟨h1.1, (h1.2.1 0 sampleTask1 rfl).1 rfl, h1.2.2.1, h3.2.2.2 (by decide)⟩

/-- C7: updateTask preserves the list length; the task at each position gets
exactly the new text when its id matches (id and completed flag unchanged,
the empty string allowed) and is untouched otherwise; the editing pointer is
not cleared; and updating an absent id leaves the task list unchanged. -/
theorem updateTask_spec (taskId newText : String) (s : AppState) :
    (updateTask taskId newText s).state.tasks.length = s.tasks.length ∧
    (∀ (i : Nat) (t : Task), s.tasks[i]? = some t →
      (t.id = taskId →
        (updateTask taskId newText s).state.tasks[i]? = some { t with text := newText }) ∧
      (t.id ≠ taskId → (updateTask taskId newText s).state.tasks[i]? = some t)) ∧
    (updateTask taskId newText s).state.editingId = s.editingId ∧
    (taskId ∉ s.tasks.map Task.id → (updateTask taskId newText s).state = s) := by
  refine ⟨by simp [updateTask], ?_, rfl, ?_⟩
  · intro i t ht
    constructor <;> intro h <;> simp [updateTask, List.getElem?_map, ht, h]
  · intro h
    obtain ⟨ta, tk, ed, an⟩ := s
    simp only [updateTask, AppState.mk.injEq, and_true, true_and]
    refine (List.map_congr_left fun t ht => ?_).trans (List.map_id tk)
    refine if_neg fun he => h ?_
    exact List.mem_map.mpr ⟨t, ht, he⟩

/-- Witness for C7 at concrete inputs: setting the text of task "1" to the
empty string in a state that is in edit mode, and updating the absent id
"3". -/
theorem updateTask_spec_witness :
    (updateTask "1" "" { sampleTwo with editingId := some "1" }).state.tasks.length
        = ({ sampleTwo with editingId := some "1" } : AppState).tasks.length ∧
    (updateTask "1" "" { sampleTwo with editingId := some "1" }).state.tasks[0]? =
      some { id := "1", text := "", completed := false } ∧
    (updateTask "1" "" { sampleTwo with editingId := some "1" }).state.editingId
        = ({ sampleTwo with editingId := some "1" } : AppState).editingId ∧
    (updateTask "3" "Z" sampleTwo).state = sampleTwo := by
  have h1 := updateTask_spec "1" "" { sampleTwo with editingId := some "1" }
  have h3 := updateTask_spec "3" "Z" sampleTwo
  exact ⟨h1.1, (h1.2.1 0 sampleTask1 rfl).1 rfl, h1.2.2.1, h3.2.2.2 (by decide)⟩

end TodoApp

namespace TodoApp

theorem jsonToTask_taskToJson (t : Task) : jsonToTask (taskToJson t) = some t := by
  obtain ⟨i, tx, c⟩ := t
  rfl

/-- C8: serializing a task list in the persistence format and parsing the
result back yields exactly the original list: same ids, texts and completed
flags, in the same order. -/
theorem tasks_json_roundtrip (ts : List Task) : jsonToTasks (tasksToJson ts) = some ts := by
  show jsonTaskList (ts.map taskToJson) = some ts
  induction ts with
  | nil => rfl
  | cons t ts ih =>
    show jsonTaskList (taskToJson t :: ts.map taskToJson) = some (t :: ts)
    simp [jsonTaskList, jsonToTask_taskToJson t, ih]

/-- C9 counterexample: an operation that mutates nothing still makes the
persistence effect run. Toggling the absent id "x" leaves the whole component
state unchanged, yet setTasks was called with a freshly built (content-equal)
array, so the save hook keyed on the tasks array fires and re-persists the
unchanged list. -/
theorem persist_without_mutation :
    (toggleComplete "x" sampleOne).state = sampleOne ∧
    persistRuns (toggleComplete "x" sampleOne) = true := by
  constructor
  · decide
  · rfl

/-- C9 as amended: the persistence effect runs exactly after the handler
invocations that call setTasks: after every add of non-blank text (and not
after a blank one), never when a deletion starts (an animation-only change),
always when a deletion completes, and after every toggleComplete or updateTask
call, whether or not the id is present; it never runs on editing-pointer
changes. -/
theorem persist_iff_setTasks (now : Nat) (text taskId newText : String)
    (captured : AnimMap) (s : AppState) :
    (persistRuns (addTask now { s with task := text }) = true ↔ jsTrim text ≠ "") ∧
    persistRuns (deleteTask taskId s) = false ∧
    persistRuns (deleteTaskComplete taskId captured s) = true ∧
    persistRuns (toggleComplete taskId s) = true ∧
    persistRuns (updateTask taskId newText s) = true ∧
    persistRuns (beginEdit taskId s) = false ∧
    persistRuns (handleBlur s) = false := by
  refine ⟨?_, ?_, rfl, rfl, rfl, rfl, rfl⟩
  · by_cases h : jsTrim text = "" <;> simp [persistRuns, addTask, h]
  · rw [deleteTask]
    split <;> rfl

/-- Witness for the amended C9 at concrete inputs. -/
theorem persist_iff_setTasks_witness :
    (persistRuns (addTask 5 { sampleOne with task := "C" }) = true ↔ jsTrim "C" ≠ "") ∧
    persistRuns (deleteTask "1" sampleOne) = false ∧
    persistRuns (deleteTaskComplete "1" [("1", 1)] sampleOne) = true ∧
    persistRuns (toggleComplete "1" sampleOne) = true ∧
    persistRuns (updateTask "1" "D" sampleOne) = true ∧
    persistRuns (beginEdit "1" sampleOne) = false ∧
    persistRuns (handleBlur sampleOne) = false :=
  persist_iff_setTasks 5 "C" "1" "D" [("1", 1)] sampleOne

/-- C10: behavior of the startup load. When the persisted slot is absent the
task list stays empty and nothing is logged; when a stored (truthy) value
parses, the task list becomes exactly the parsed list; when parsing throws,
the exception is caught, the failure is only logged, and the task list stays
empty — the function returns normally, so the failure is neither surfaced nor
fatal, and no retry occurs. -/
theorem load_spec (parse : String → Except String (List Task)) (saved : Option String) :
    (saved = none → loadTasksFromStorage parse saved = ([], [])) ∧
    (∀ str ts, saved = some str → str ≠ "" → parse str = .ok ts →
      loadTasksFromStorage parse saved = (ts, [])) ∧
    (∀ str e, saved = some str → str ≠ "" → parse str = .error e →
      loadTasksFromStorage parse saved = ([], ["Failed to load tasks from storage"])) := by
  refine ⟨?_, ?_, ?_⟩
  · rintro rfl
    rfl
  · rintro str ts rfl hne hok
    simp [loadTasksFromStorage, hne, hok]
  · rintro str e rfl hne herr
    simp [loadTasksFromStorage, hne, herr]

/-- Witness for C10 at concrete inputs: an absent slot, a stored value that
parses to one task, and a stored value on which the parse throws. -/
theorem load_spec_witness :
    loadTasksFromStorage (fun _ => Except.error "bad") none = ([], []) ∧
    loadTasksFromStorage (fun _ => Except.ok [sampleTask1]) (some "x") = ([sampleTask1], []) ∧
    loadTasksFromStorage (fun _ => Except.error "bad") (some "x")
        = ([], ["Failed to load tasks from storage"]) :=
  ⟨(load_spec (fun _ => Except.error "bad") none).1 rfl,
   (load_spec (fun _ => Except.ok [sampleTask1]) (some "x")).2.1 "x" [sampleTask1]
     rfl (by decide) rfl,
   (load_spec (fun _ => Except.error "bad") (some "x")).2.2 "x" "bad"
     rfl (by decide) rfl⟩

end TodoApp
